import Mathlib

/-!
Verification of the NinjaHorizon WebSocket relay server core
(src/server.ts): rooms, client registry, message dispatch and
disconnect handling, shallowly embedded as a step function on an
explicit server state.  Connections are modelled as opaque natural
numbers; the open/closed status of each channel (readyState) is a
list of currently open connections carried in the state; JS Map
objects become insertion-ordered association lists with Map update
semantics; absent JSON fields are modelled by Option, with the
distinction between undefined (key dropped by JSON.stringify) and
null (key kept) made explicit in the outbound value type.
-/

namespace NinjaWS

/-- Connection handles (WebSocket objects) are modelled as natural numbers. -/
abbrev Conn := Nat

/-- Lookup in an insertion-ordered association list, as JS Map.get. -/
def mapGet {κ α : Type} [DecidableEq κ] : List (κ × α) → κ → Option α
  | [], _ => none
  | (k, v) :: rest, k0 => if k = k0 then some v else mapGet rest k0

/-- Update-in-place-or-append, as JS Map.set: an existing key keeps its position. -/
def mapSet {κ α : Type} [DecidableEq κ] : List (κ × α) → κ → α → List (κ × α)
  | [], k0, v0 => [(k0, v0)]
  | (k, v) :: rest, k0, v0 =>
      if k = k0 then (k0, v0) :: rest else (k, v) :: mapSet rest k0 v0

/-- Removal of a key, as JS Map.delete. -/
def mapDelete {κ α : Type} [DecidableEq κ] : List (κ × α) → κ → List (κ × α)
  | [], _ => []
  | (k, v) :: rest, k0 =>
      if k = k0 then mapDelete rest k0 else (k, v) :: mapDelete rest k0

/-- Values appearing in an outbound message object: undefined, null, or a string.
JSON.stringify drops keys whose value is undefined and keeps null keys. -/
inductive JVal
  | undef
  | nullv
  | str (s : String)
  deriving DecidableEq, Repr

/-- Outbound JSON object: ordered key-value pairs. -/
abbrev JObj := List (String × JVal)

/-- Keys surviving serialization: JSON.stringify drops undefined-valued keys. -/
def serializedKeys (o : JObj) : List String :=
  (o.filter fun kv => kv.2 != JVal.undef).map Prod.fst

/-- Decoded inbound message: the type discriminator plus every field any
handler reads.  A value of none models an absent (undefined) field. -/
structure Message where
  mtype : String
  roomId : Option String
  playerId : Option String
  displayName : Option String
  message : Option String
  deriving DecidableEq, Repr

/-- JS truthiness test applied by the handlers to string-or-nullish fields:
null, undefined and the empty string are falsy. -/
def falsy : Option String → Bool
  | none => true
  | some s => s == ""

/-- Member entry of a room: the connection and the server-generated client id. -/
structure Player where
  ws : Conn
  clientId : String
  deriving DecidableEq, Repr

/-- Room state: id, the playerId-to-Player map in join order, and the playerIds array. -/
structure GameRoom where
  id : String
  players : List (String × Player)
  playerIds : List String
  deriving DecidableEq, Repr

def GameRoom.hasPlayer (room : GameRoom) (playerId : String) : Bool :=
  (mapGet room.players playerId).isSome

def GameRoom.getPlayerCount (room : GameRoom) : Nat :=
  room.players.length

def GameRoom.isFull (room : GameRoom) : Bool :=
  room.players.length ≥ 2

/-- Value built from a string-or-null source (ClientInfo fields): null is kept
by JSON.stringify, so the key always survives. -/
def jnull : Option String → JVal
  | none => JVal.nullv
  | some s => JVal.str s

/-- Value read off a decoded inbound payload: an absent field is undefined and
its key is dropped by JSON.stringify. -/
def jundef : Option String → JVal
  | none => JVal.undef
  | some s => JVal.str s

def gameStartedMsg : JObj := [("type", JVal.str "game_started")]

def chatMsg (playerId displayName message : Option String) : JObj :=
  [("type", JVal.str "chat"), ("playerId", jnull playerId),
   ("displayName", jundef displayName), ("message", jundef message)]

def actionCompleteMsg (playerId : Option String) : JObj :=
  [("type", JVal.str "action_complete"), ("playerId", jnull playerId)]

def gameOverMsg (playerId : Option String) : JObj :=
  [("type", JVal.str "game_over"), ("playerId", jnull playerId)]

def disconnectMsg (playerId : String) : JObj :=
  [("type", JVal.str "disconnect"), ("playerId", JVal.str playerId)]

/-- Fan a message out to every member whose connection differs from excludeWs
and whose channel is open; the result is the list of (connection, payload)
sends performed.  Mirrors GameRoom.broadcastToRoom in the source. -/
def GameRoom.broadcastToRoom (room : GameRoom) (openConns : List Conn)
    (msg : JObj) (excludeWs : Option Conn) : List (Conn × JObj) :=
  (room.players.filter fun kv =>
      (some kv.2.ws != excludeWs) && openConns.contains kv.2.ws).map
    fun kv => (kv.2.ws, msg)

/-- Insert a member; when the member count becomes exactly 2 the room
broadcasts game_started to all members (no exclusion). -/
def GameRoom.addPlayer (room : GameRoom) (openConns : List Conn)
    (ws : Conn) (clientId playerId : String) : GameRoom × List (Conn × JObj) :=
  let room2 : GameRoom :=
    { room with players := mapSet room.players playerId ⟨ws, clientId⟩,
                playerIds := room.playerIds ++ [playerId] }
  if room2.players.length == 2 then
    (room2, room2.broadcastToRoom openConns gameStartedMsg none)
  else
    (room2, [])

/-- Delete a member from the map and erase the first occurrence of its id
from the playerIds array (indexOf plus splice in the source). -/
def GameRoom.removePlayer (room : GameRoom) (playerId : String) : GameRoom :=
  { room with players := mapDelete room.players playerId,
              playerIds := room.playerIds.erase playerId }

/-- Registry entry for a live connection. -/
structure ClientInfo where
  id : String
  roomId : Option String
  playerId : Option String
  deriving DecidableEq, Repr

/-- Whole-server state: the Room Table, the Channel Registry, the set of
currently open channels, and a counter generating fresh client ids. -/
structure ServerState where
  rooms : List (String × GameRoom)
  clients : List (Conn × ClientInfo)
  openConns : List Conn
  nextId : Nat
  deriving DecidableEq, Repr

def initState : ServerState := ⟨[], [], [], 0⟩

/-- Handler for join_room: requires truthy roomId and playerId, lazily
creates the room, treats a duplicate playerId as a no-op, otherwise inserts
the member and records roomId/playerId in the ClientInfo. -/
def handleJoinRoom (s : ServerState) (ws : Conn)
    (roomId playerId : Option String) : ServerState × List (Conn × JObj) :=
  match mapGet s.clients ws with
  | none => (s, [])
  | some clientInfo =>
    if falsy roomId || falsy playerId then (s, [])
    else
      let rid := roomId.getD ""
      let pid := playerId.getD ""
      let s1 : ServerState :=
        if (mapGet s.rooms rid).isSome then s
        else { s with rooms := mapSet s.rooms rid ⟨rid, [], []⟩ }
      match mapGet s1.rooms rid with
      | none => (s1, [])
      | some room =>
        if room.hasPlayer pid then (s1, [])
        else
          let res := room.addPlayer s1.openConns ws clientInfo.id pid
          ({ s1 with
              rooms := mapSet s1.rooms rid res.1,
              clients := mapSet s1.clients ws ⟨clientInfo.id, some rid, some pid⟩ },
           res.2)

/-- Handler for chat: requires a truthy roomId in the registry entry and an
existing room; relays playerId from the registry and displayName and message
from the payload to all members. -/
def handleChat (s : ServerState) (ws : Conn) (m : Message) :
    ServerState × List (Conn × JObj) :=
  match mapGet s.clients ws with
  | none => (s, [])
  | some clientInfo =>
    if falsy clientInfo.roomId then (s, [])
    else
      match mapGet s.rooms (clientInfo.roomId.getD "") with
      | none => (s, [])
      | some room =>
        (s, room.broadcastToRoom s.openConns
              (chatMsg clientInfo.playerId m.displayName m.message) none)

/-- Handler for action_complete: broadcasts the registry playerId to all members. -/
def handleActionComplete (s : ServerState) (ws : Conn) (m : Message) :
    ServerState × List (Conn × JObj) :=
  match mapGet s.clients ws with
  | none => (s, [])
  | some clientInfo =>
    if falsy clientInfo.roomId then (s, [])
    else
      match mapGet s.rooms (clientInfo.roomId.getD "") with
      | none => (s, [])
      | some room =>
        (s, room.broadcastToRoom s.openConns
              (actionCompleteMsg clientInfo.playerId) none)

/-- Handler for game_over: broadcasts the registry playerId to all members. -/
def handleGameOver (s : ServerState) (ws : Conn) (m : Message) :
    ServerState × List (Conn × JObj) :=
  match mapGet s.clients ws with
  | none => (s, [])
  | some clientInfo =>
    if falsy clientInfo.roomId then (s, [])
    else
      match mapGet s.rooms (clientInfo.roomId.getD "") with
      | none => (s, [])
      | some room =>
        (s, room.broadcastToRoom s.openConns
              (gameOverMsg clientInfo.playerId) none)

/-- Player-loss path of disconnect handling: broadcast the disconnect event
to the room (before removal; the closed channel of the leaver is skipped by
the open-check), remove the member, and delete the room if it emptied. -/
def handlePlayerDisconnect (s : ServerState) (roomId disconnectedPlayerId : String) :
    ServerState × List (Conn × JObj) :=
  match mapGet s.rooms roomId with
  | none => (s, [])
  | some room =>
    let sends := room.broadcastToRoom s.openConns (disconnectMsg disconnectedPlayerId) none
    let room2 := room.removePlayer disconnectedPlayerId
    let s1 : ServerState :=
      if room2.getPlayerCount == 0 then { s with rooms := mapDelete s.rooms roomId }
      else { s with rooms := mapSet s.rooms roomId room2 }
    (s1, sends)

/-- Close handler: if the registry entry has truthy roomId and playerId, run
the player-loss path, then drop the registry entry. -/
def handleDisconnect (s : ServerState) (ws : Conn) :
    ServerState × List (Conn × JObj) :=
  match mapGet s.clients ws with
  | none => (s, [])
  | some clientInfo =>
    let res :=
      if !falsy clientInfo.roomId && !falsy clientInfo.playerId then
        handlePlayerDisconnect s (clientInfo.roomId.getD "") (clientInfo.playerId.getD "")
      else (s, [])
    ({ res.1 with clients := mapDelete res.1.clients ws }, res.2)

/-- Dispatch on the type discriminator; unregistered connections and unknown
types are dropped silently. -/
def handleMessage (s : ServerState) (ws : Conn) (m : Message) :
    ServerState × List (Conn × JObj) :=
  match mapGet s.clients ws with
  | none => (s, [])
  | some _ =>
    if m.mtype == "join_room" then handleJoinRoom s ws m.roomId m.playerId
    else if m.mtype == "chat" then handleChat s ws m
    else if m.mtype == "game_over" then handleGameOver s ws m
    else if m.mtype == "action_complete" then handleActionComplete s ws m
    else (s, [])

/-- External events driving the server: a new connection, an inbound frame
(none models a frame that is not valid JSON, whose parse error is caught and
the frame dropped), and the close notification for a channel. -/
inductive Event
  | connect (ws : Conn)
  | frame (ws : Conn) (decoded : Option Message)
  | disconnect (ws : Conn)
  deriving DecidableEq, Repr

/-- One transition: the resulting state and the list of sends performed.
On connect a fresh ClientInfo is registered and the channel recorded open;
on close the channel is closed before the close handler runs. -/
def step (s : ServerState) (e : Event) : ServerState × List (Conn × JObj) :=
  match e with
  | Event.connect ws =>
      ({ s with clients := mapSet s.clients ws ⟨toString s.nextId, none, none⟩,
                openConns := ws :: s.openConns,
                nextId := s.nextId + 1 }, [])
  | Event.frame ws decoded =>
      match decoded with
      | none => (s, [])
      | some m => handleMessage s ws m
  | Event.disconnect ws =>
      handleDisconnect { s with openConns := s.openConns.erase ws } ws

/-- Final state after a sequence of events. -/
def runEvents : ServerState → List Event → ServerState
  | s, [] => s
  | s, e :: es => runEvents (step s e).1 es

/-- Per-step send lists along a sequence of events. -/
def runOutputs : ServerState → List Event → List (List (Conn × JObj))
  | _, [] => []
  | s, e :: es => (step s e).2 :: runOutputs (step s e).1 es

/-! Helper lemmas about the Map operations. -/

theorem mapGet_mapSet_self {κ α : Type} [DecidableEq κ] (l : List (κ × α)) (k : κ) (v : α) :
    mapGet (mapSet l k v) k = some v := by
  induction l with
  | nil => simp [mapGet, mapSet]
  | cons hd tl ih =>
    obtain ⟨k1, v1⟩ := hd
    by_cases h : k1 = k <;> simp [mapSet, mapGet, h, ih]

theorem mapGet_mapSet_ne {κ α : Type} [DecidableEq κ] (l : List (κ × α)) (k k0 : κ) (v : α)
    (h : k ≠ k0) : mapGet (mapSet l k0 v) k = mapGet l k := by
  have h0 : ¬(k0 = k) := fun hh => h hh.symm
  induction l with
  | nil => simp [mapGet, mapSet, h0]
  | cons hd tl ih =>
    obtain ⟨k1, v1⟩ := hd
    by_cases h1 : k1 = k0
    · subst h1
      simp [mapSet, mapGet, h0]
    · simp [mapSet, mapGet, h1, ih]

theorem mapDelete_eq_filter {κ α : Type} [DecidableEq κ] (l : List (κ × α)) (k : κ) :
    mapDelete l k = l.filter (fun kv => !(kv.1 == k)) := by
  induction l with
  | nil => simp [mapDelete]
  | cons hd tl ih =>
    obtain ⟨k1, v1⟩ := hd
    by_cases h : k1 = k <;>
      simp [mapDelete, h, ih, List.filter_cons, beq_iff_eq]

theorem mapGet_mapDelete_self {κ α : Type} [DecidableEq κ] (l : List (κ × α)) (k : κ) :
    mapGet (mapDelete l k) k = none := by
  induction l with
  | nil => simp [mapDelete, mapGet]
  | cons hd tl ih =>
    obtain ⟨k1, v1⟩ := hd
    by_cases h : k1 = k <;> simp [mapDelete, mapGet, h, ih]

theorem mapGet_mapDelete_ne {κ α : Type} [DecidableEq κ] (l : List (κ × α)) (k k0 : κ)
    (h : k ≠ k0) : mapGet (mapDelete l k0) k = mapGet l k := by
  have h0 : ¬(k0 = k) := fun hh => h hh.symm
  induction l with
  | nil => simp [mapDelete]
  | cons hd tl ih =>
    obtain ⟨k1, v1⟩ := hd
    by_cases h1 : k1 = k0
    · subst h1
      simp [mapDelete, mapGet, h0, ih]
    · simp [mapDelete, mapGet, h1, ih]

theorem keys_mapDelete_sublist {κ α : Type} [DecidableEq κ] (l : List (κ × α)) (k : κ) :
    ((mapDelete l k).map Prod.fst).Sublist (l.map Prod.fst) := by
  rw [mapDelete_eq_filter]
  exact (List.filter_sublist l).map Prod.fst

theorem keys_mapSet_subset {κ α : Type} [DecidableEq κ] (l : List (κ × α)) (k : κ) (v : α) :
    ((mapSet l k v).map Prod.fst) ⊆ (l.map Prod.fst) ++ [k] := by
  induction l with
  | nil => simp [mapSet]
  | cons hd tl ih =>
    obtain ⟨k1, v1⟩ := hd
    by_cases h : k1 = k
    · subst h
      simp only [mapSet, if_pos rfl, List.map_cons]
      exact List.subset_append_left _ _
    · simp only [mapSet, if_neg h, List.map_cons, List.cons_append]
      intro a ha
      rcases List.mem_cons.mp ha with h1 | h1
      · exact List.mem_cons.mpr (Or.inl h1)
      · rcases List.mem_append.mp (ih h1) with h2 | h2
        · exact List.mem_cons.mpr (Or.inr (List.mem_append_left _ h2))
        · exact List.mem_cons.mpr (Or.inr (List.mem_append_right _ h2))

theorem nodup_keys_mapSet {κ α : Type} [DecidableEq κ] (l : List (κ × α)) (k : κ) (v : α)
    (h : (l.map Prod.fst).Nodup) : ((mapSet l k v).map Prod.fst).Nodup := by
  induction l with
  | nil => simp [mapSet]
  | cons hd tl ih =>
    obtain ⟨k1, v1⟩ := hd
    simp only [List.map_cons, List.nodup_cons] at h
    by_cases h1 : k1 = k
    · subst h1
      simpa [mapSet] using h
    · simp only [mapSet, if_neg h1, List.map_cons, List.nodup_cons]
      refine ⟨?_, ih h.2⟩
      intro hmem
      rcases List.mem_append.mp (keys_mapSet_subset tl k v hmem) with h2 | h2
      · exact h.1 h2
      · simp only [List.mem_singleton] at h2
        exact h1 h2

theorem nodup_keys_mapDelete {κ α : Type} [DecidableEq κ] (l : List (κ × α)) (k : κ)
    (h : (l.map Prod.fst).Nodup) : ((mapDelete l k).map Prod.fst).Nodup :=
  (keys_mapDelete_sublist l k).nodup h

theorem isSome_mapGet_mapSet {κ α : Type} [DecidableEq κ] (l : List (κ × α)) (k c : κ) (v : α)
    (h : (mapGet l k).isSome = true) :
    (mapGet (mapSet l k v) c).isSome = (mapGet l c).isSome := by
  by_cases hc : c = k
  · subst hc
    simp [mapGet_mapSet_self, h]
  · rw [mapGet_mapSet_ne l c k v hc]

/-! Helper lemmas about broadcastToRoom. -/

theorem broadcastToRoom_payload (room : GameRoom) (openConns : List Conn) (msg : JObj)
    (excludeWs : Option Conn) (c : Conn) (m : JObj)
    (h : (c, m) ∈ room.broadcastToRoom openConns msg excludeWs) : m = msg := by
  simp only [GameRoom.broadcastToRoom, List.mem_map] at h
  obtain ⟨kv, _, hkv⟩ := h
  exact congrArg Prod.snd hkv.symm

theorem mem_broadcastToRoom (room : GameRoom) (openConns : List Conn) (msg : JObj)
    (excludeWs : Option Conn) (c : Conn) (m : JObj) :
    (c, m) ∈ room.broadcastToRoom openConns msg excludeWs ↔
      (m = msg ∧ ∃ pid pl, (pid, pl) ∈ room.players ∧ pl.ws = c ∧
        some c ≠ excludeWs ∧ openConns.contains c = true) := by
  simp only [GameRoom.broadcastToRoom, List.mem_map, List.mem_filter]
  constructor
  · rintro ⟨⟨pid, pl⟩, ⟨hmem, hcond⟩, heq⟩
    obtain ⟨hc, hm⟩ := Prod.mk.injEq .. ▸ heq
    subst hc
    simp only [Bool.and_eq_true, bne_iff_ne, ne_eq] at hcond
    exact ⟨hm.symm, pid, pl, hmem, rfl, hcond.1, hcond.2⟩
  · rintro ⟨hm, pid, pl, hmem, hws, hex, hopen⟩
    subst hm
    subst hws
    refine ⟨(pid, pl), ⟨hmem, ?_⟩, rfl⟩
    simp only [Bool.and_eq_true, bne_iff_ne, ne_eq]
    exact ⟨hex, hopen⟩

theorem mapSet_mapSet_self {κ α : Type} [DecidableEq κ] (l : List (κ × α)) (k : κ) (v v2 : α) :
    mapSet (mapSet l k v) k v2 = mapSet l k v2 := by
  induction l with
  | nil => simp [mapSet]
  | cons hd tl ih =>
    obtain ⟨k1, v1⟩ := hd
    by_cases h : k1 = k <;> simp [mapSet, h, ih]

/-! Characterization lemmas for the handlers. -/

/-- Room found for rid, or the empty room lazily created by handleJoinRoom. -/
def roomAfterCreate (s : ServerState) (rid : String) : GameRoom :=
  (mapGet s.rooms rid).getD ⟨rid, [], []⟩

theorem handleJoinRoom_noClient (s : ServerState) (ws : Conn) (mr mp : Option String)
    (hc : mapGet s.clients ws = none) : handleJoinRoom s ws mr mp = (s, []) := by
  unfold handleJoinRoom
  simp [hc]

theorem handleJoinRoom_falsy (s : ServerState) (ws : Conn) (mr mp : Option String)
    (hf : (falsy mr || falsy mp) = true) : handleJoinRoom s ws mr mp = (s, []) := by
  unfold handleJoinRoom
  cases hc : mapGet s.clients ws <;> simp [hf]

theorem handleJoinRoom_dup (s : ServerState) (ws : Conn) (mr mp : Option String)
    (room : GameRoom)
    (hf : (falsy mr || falsy mp) = false)
    (hr : mapGet s.rooms (mr.getD "") = some room)
    (hp : room.hasPlayer (mp.getD "") = true) :
    handleJoinRoom s ws mr mp = (s, []) := by
  unfold handleJoinRoom
  cases hc : mapGet s.clients ws with
  | none => rfl
  | some ci => simp [hf, hr, hp]

theorem handleJoinRoom_success (s : ServerState) (ws : Conn) (mr mp : Option String)
    (ci : ClientInfo)
    (hc : mapGet s.clients ws = some ci)
    (hf : (falsy mr || falsy mp) = false)
    (hnp : (roomAfterCreate s (mr.getD "")).hasPlayer (mp.getD "") = false) :
    handleJoinRoom s ws mr mp =
      ({ rooms := mapSet s.rooms (mr.getD "")
            ((roomAfterCreate s (mr.getD "")).addPlayer s.openConns ws ci.id (mp.getD "")).1,
         clients := mapSet s.clients ws ⟨ci.id, some (mr.getD ""), some (mp.getD "")⟩,
         openConns := s.openConns,
         nextId := s.nextId },
       ((roomAfterCreate s (mr.getD "")).addPlayer s.openConns ws ci.id (mp.getD "")).2) := by
  unfold handleJoinRoom
  cases hg : mapGet s.rooms (mr.getD "") with
  | none =>
    have hget : roomAfterCreate s (mr.getD "") = ⟨mr.getD "", [], []⟩ := by
      simp [roomAfterCreate, hg]
    simp only [hc, hf, Bool.false_eq_true, if_false, hg, Option.isSome_none]
    simp only [mapGet_mapSet_self]
    rw [hget] at hnp
    simp only [hnp, Bool.false_eq_true, if_false]
    rw [hget]
    simp [mapSet_mapSet_self]
  | some room =>
    have hget : roomAfterCreate s (mr.getD "") = room := by
      simp [roomAfterCreate, hg]
    simp only [hc, hf, Bool.false_eq_true, if_false, hg, Option.isSome_some, if_true]
    rw [hget] at hnp
    simp only [hg, hnp, Bool.false_eq_true, if_false]
    rw [hget]

theorem handleChat_state (s : ServerState) (ws : Conn) (m : Message) :
    (handleChat s ws m).1 = s := by
  unfold handleChat
  split
  · rfl
  · split
    · rfl
    · split
      · rfl
      · rfl

theorem handleActionComplete_state (s : ServerState) (ws : Conn) (m : Message) :
    (handleActionComplete s ws m).1 = s := by
  unfold handleActionComplete
  split
  · rfl
  · split
    · rfl
    · split
      · rfl
      · rfl

theorem handleGameOver_state (s : ServerState) (ws : Conn) (m : Message) :
    (handleGameOver s ws m).1 = s := by
  unfold handleGameOver
  split
  · rfl
  · split
    · rfl
    · split
      · rfl
      · rfl

theorem step_join_eq (s : ServerState) (ws : Conn) (mr mp dn mm : Option String) :
    step s (Event.frame ws (some ⟨"join_room", mr, mp, dn, mm⟩)) =
      handleJoinRoom s ws mr mp := by
  show handleMessage s ws _ = _
  unfold handleMessage
  cases hc : mapGet s.clients ws with
  | none => rw [handleJoinRoom_noClient s ws mr mp hc]
  | some ci => simp

theorem step_chat_eq (s : ServerState) (ws : Conn) (mr mp dn mm : Option String) :
    step s (Event.frame ws (some ⟨"chat", mr, mp, dn, mm⟩)) =
      handleChat s ws ⟨"chat", mr, mp, dn, mm⟩ := by
  show handleMessage s ws _ = _
  unfold handleMessage
  cases hc : mapGet s.clients ws with
  | none => simp [handleChat, hc]
  | some ci => simp

theorem step_actionComplete_eq (s : ServerState) (ws : Conn) (mr mp dn mm : Option String) :
    step s (Event.frame ws (some ⟨"action_complete", mr, mp, dn, mm⟩)) =
      handleActionComplete s ws ⟨"action_complete", mr, mp, dn, mm⟩ := by
  show handleMessage s ws _ = _
  unfold handleMessage
  cases hc : mapGet s.clients ws with
  | none => simp [handleActionComplete, hc]
  | some ci => simp

theorem step_gameOver_eq (s : ServerState) (ws : Conn) (mr mp dn mm : Option String) :
    step s (Event.frame ws (some ⟨"game_over", mr, mp, dn, mm⟩)) =
      handleGameOver s ws ⟨"game_over", mr, mp, dn, mm⟩ := by
  show handleMessage s ws _ = _
  unfold handleMessage
  cases hc : mapGet s.clients ws with
  | none => simp [handleGameOver, hc]
  | some ci => simp

theorem handleMessage_preserves (s : ServerState) (ws : Conn) (m : Message) :
    (handleMessage s ws m).1.openConns = s.openConns ∧
    ∀ c, (mapGet (handleMessage s ws m).1.clients c).isSome =
         (mapGet s.clients c).isSome := by
  unfold handleMessage
  cases hc : mapGet s.clients ws with
  | none => exact ⟨rfl, fun c => rfl⟩
  | some ci =>
    by_cases h1 : (m.mtype == "join_room") = true
    · rw [if_pos h1]
      by_cases hf : (falsy m.roomId || falsy m.playerId) = true
      · rw [handleJoinRoom_falsy _ _ _ _ hf]
        exact ⟨rfl, fun c => rfl⟩
      · have hf2 : (falsy m.roomId || falsy m.playerId) = false := by
          simpa using hf
        by_cases hp : (roomAfterCreate s (m.roomId.getD "")).hasPlayer (m.playerId.getD "") = true
        · cases hg : mapGet s.rooms (m.roomId.getD "") with
          | none =>
            exfalso
            rw [roomAfterCreate, hg] at hp
            simp [GameRoom.hasPlayer, mapGet] at hp
          | some room =>
            have hroom : roomAfterCreate s (m.roomId.getD "") = room := by
              simp [roomAfterCreate, hg]
            rw [handleJoinRoom_dup s ws m.roomId m.playerId room hf2 hg (hroom ▸ hp)]
            exact ⟨rfl, fun c => rfl⟩
        · have hp2 : (roomAfterCreate s (m.roomId.getD "")).hasPlayer (m.playerId.getD "") = false := by
            simpa using hp
          rw [handleJoinRoom_success s ws m.roomId m.playerId ci hc hf2 hp2]
          exact ⟨rfl, fun c => isSome_mapGet_mapSet _ _ _ _ (by simp [hc])⟩
    · rw [if_neg h1]
      by_cases h2 : (m.mtype == "chat") = true
      · rw [if_pos h2, handleChat_state]
        exact ⟨rfl, fun c => rfl⟩
      · rw [if_neg h2]
        by_cases h3 : (m.mtype == "game_over") = true
        · rw [if_pos h3, handleGameOver_state]
          exact ⟨rfl, fun c => rfl⟩
        · rw [if_neg h3]
          by_cases h4 : (m.mtype == "action_complete") = true
          · rw [if_pos h4, handleActionComplete_state]
            exact ⟨rfl, fun c => rfl⟩
          · rw [if_neg h4]
            exact ⟨rfl, fun c => rfl⟩

/-- Shorthand for a decoded join_room message. -/
def joinMsg (r p : String) : Message := ⟨"join_room", some r, some p, none, none⟩

/-- Frame event carrying a join_room message. -/
def joinFrame (ws : Conn) (r p : String) : Event := Event.frame ws (some (joinMsg r p))

/-- C4: processing a second join_room with a roomId and playerId already
present in that room is a complete no-op: the entire server state (room
membership and every ClientInfo entry) is unchanged and no send is emitted. -/
theorem c4_rejoin_idempotent (s : ServerState) (ws : Conn) (m : Message) (room : GameRoom)
    (ht : m.mtype = "join_room")
    (hr : mapGet s.rooms (m.roomId.getD "") = some room)
    (hp : room.hasPlayer (m.playerId.getD "") = true) :
    step s (Event.frame ws (some m)) = (s, []) := by
  obtain ⟨t, mr, mp, dn, mm⟩ := m
  simp only at ht hr hp
  subst ht
  rw [step_join_eq]
  by_cases hf : (falsy mr || falsy mp) = true
  · exact handleJoinRoom_falsy s ws mr mp hf
  · exact handleJoinRoom_dup s ws mr mp room (by simpa using hf) hr hp

def c4State : ServerState :=
  runEvents initState [Event.connect 0, Event.connect 1, joinFrame 0 "r" "p1"]

/-- Witness for C4 at a concrete reachable state: a second connection
re-joining room r as the already-present player p1 changes nothing. -/
theorem c4_rejoin_idempotent_witness :
    step c4State (Event.frame 1 (some (joinMsg "r" "p1"))) = (c4State, []) :=
  c4_rejoin_idempotent c4State 1 (joinMsg "r" "p1")
    ⟨"r", [("p1", ⟨0, "0"⟩)], ["p1"]⟩ rfl (by decide) (by decide)

/-- C7: chat, action_complete and game_over from a connection with no
registry entry or with no roomId produce no send and leave the whole server
state (Channel Registry and Room Table) unchanged. -/
theorem c7_roomless_event_noop (s : ServerState) (ws : Conn) (m : Message)
    (ht : m.mtype = "chat" ∨ m.mtype = "action_complete" ∨ m.mtype = "game_over")
    (hci : mapGet s.clients ws = none ∨
           ∃ info, mapGet s.clients ws = some info ∧ info.roomId = none) :
    step s (Event.frame ws (some m)) = (s, []) := by
  obtain ⟨t, mr, mp, dn, mm⟩ := m
  simp only at ht
  rcases ht with ht | ht | ht <;> subst ht
  · rw [step_chat_eq]
    unfold handleChat
    rcases hci with hc | ⟨info, hc, hroom⟩
    · simp [hc]
    · simp [hc, hroom, falsy]
  · rw [step_actionComplete_eq]
    unfold handleActionComplete
    rcases hci with hc | ⟨info, hc, hroom⟩
    · simp [hc]
    · simp [hc, hroom, falsy]
  · rw [step_gameOver_eq]
    unfold handleGameOver
    rcases hci with hc | ⟨info, hc, hroom⟩
    · simp [hc]
    · simp [hc, hroom, falsy]

def freshState : ServerState := runEvents initState [Event.connect 0]

/-- Witness for C7: a freshly connected client (roomId unset) sending chat
produces no send and no state change. -/
theorem c7_roomless_event_noop_witness :
    step freshState (Event.frame 0 (some ⟨"chat", none, none, some "Al", some "hi"⟩)) =
      (freshState, []) :=
  c7_roomless_event_noop freshState 0 ⟨"chat", none, none, some "Al", some "hi"⟩
    (Or.inl rfl) (Or.inr ⟨⟨"0", none, none⟩, by decide, rfl⟩)

/-- C8: a join_room whose roomId or playerId is missing or empty is a
complete no-op: no room created, no ClientInfo mutation, no send. -/
theorem c8_invalid_join_noop (s : ServerState) (ws : Conn) (m : Message)
    (ht : m.mtype = "join_room")
    (hbad : falsy m.roomId = true ∨ falsy m.playerId = true) :
    step s (Event.frame ws (some m)) = (s, []) := by
  obtain ⟨t, mr, mp, dn, mm⟩ := m
  simp only at ht hbad
  subst ht
  rw [step_join_eq]
  apply handleJoinRoom_falsy
  rcases hbad with h | h <;> simp [h]

/-- Witness for C8: join_room with an empty roomId at a concrete state. -/
theorem c8_invalid_join_noop_witness :
    step freshState (Event.frame 0 (some ⟨"join_room", some "", some "p1", none, none⟩)) =
      (freshState, []) :=
  c8_invalid_join_noop freshState 0 ⟨"join_room", some "", some "p1", none, none⟩
    rfl (Or.inl rfl)

/-- C9: broadcastToRoom sends the message to exactly those members whose
connection differs from excludeWs and whose channel is open; closed members
are skipped, and the room itself is not modified (broadcastToRoom returns
only the send list and touches no state). -/
theorem c9_broadcast_exact (room : GameRoom) (openConns : List Conn) (msg : JObj)
    (excludeWs : Option Conn) :
    ∀ c m, (c, m) ∈ room.broadcastToRoom openConns msg excludeWs ↔
      (m = msg ∧ ∃ pid pl, (pid, pl) ∈ room.players ∧ pl.ws = c ∧
        some c ≠ excludeWs ∧ openConns.contains c = true) :=
  fun c m => mem_broadcastToRoom room openConns msg excludeWs c m

/-- C5: a frame that is not valid JSON leaves the whole state unchanged with
no send and the connection open; processing any decoded message runs to
completion (the handlers are total functions), never closes a channel and
never removes a registry entry. -/
theorem c5_inbound_frame_safety :
    (∀ s ws, step s (Event.frame ws none) = (s, [])) ∧
    (∀ s ws m, (step s (Event.frame ws (some m))).1.openConns = s.openConns ∧
       ∀ c, (mapGet (step s (Event.frame ws (some m))).1.clients c).isSome =
            (mapGet s.clients c).isSome) :=
  ⟨fun _ _ => rfl, fun s ws m => handleMessage_preserves s ws m⟩

theorem GameRoom.addPlayer_fst (room : GameRoom) (openConns : List Conn)
    (ws : Conn) (clientId playerId : String) :
    (room.addPlayer openConns ws clientId playerId).1 =
      { room with players := mapSet room.players playerId ⟨ws, clientId⟩,
                  playerIds := room.playerIds ++ [playerId] } := by
  simp only [GameRoom.addPlayer]
  split
  · rfl
  · rfl

theorem handleDisconnect_clients_self (s : ServerState) (ws : Conn) :
    mapGet (handleDisconnect s ws).1.clients ws = none := by
  unfold handleDisconnect
  cases hc : mapGet s.clients ws with
  | none => exact hc
  | some ci =>
    simp only
    exact mapGet_mapDelete_self _ _

theorem handleDisconnect_sends (s : ServerState) (ws : Conn) (info : ClientInfo)
    (rid pid : String) (room : GameRoom)
    (hc : mapGet s.clients ws = some info)
    (hr : info.roomId = some rid) (hrne : rid ≠ "")
    (hp : info.playerId = some pid) (hpne : pid ≠ "")
    (hroom : mapGet s.rooms rid = some room) :
    (handleDisconnect s ws).2 =
      room.broadcastToRoom s.openConns (disconnectMsg pid) none := by
  have hfr : falsy info.roomId = false := by simp [falsy, hr, hrne]
  have hfp : falsy info.playerId = false := by simp [falsy, hp, hpne]
  unfold handleDisconnect
  simp only [hc, hfr, hfp, Bool.not_false, Bool.and_self, if_true]
  unfold handlePlayerDisconnect
  rw [hr, hp]
  simp only [Option.getD_some, hroom]

theorem handleDisconnect_inRoom_rooms_self (s : ServerState) (ws : Conn) (info : ClientInfo)
    (rid pid : String) (room : GameRoom)
    (hc : mapGet s.clients ws = some info)
    (hr : info.roomId = some rid) (hrne : rid ≠ "")
    (hp : info.playerId = some pid) (hpne : pid ≠ "")
    (hroom : mapGet s.rooms rid = some room) :
    mapGet (handleDisconnect s ws).1.rooms rid =
      if (room.removePlayer pid).getPlayerCount == 0 then none
      else some (room.removePlayer pid) := by
  have hfr : falsy info.roomId = false := by simp [falsy, hr, hrne]
  have hfp : falsy info.playerId = false := by simp [falsy, hp, hpne]
  unfold handleDisconnect
  simp only [hc, hfr, hfp, Bool.not_false, Bool.and_self, if_true]
  unfold handlePlayerDisconnect
  rw [hr, hp]
  simp only [Option.getD_some, hroom]
  by_cases h0 : ((room.removePlayer pid).getPlayerCount == 0) = true
  · rw [if_pos h0, if_pos h0]
    exact mapGet_mapDelete_self _ _
  · rw [if_neg h0, if_neg h0]
    exact mapGet_mapSet_self _ _ _

theorem handleDisconnect_inRoom_rooms_ne (s : ServerState) (ws : Conn) (info : ClientInfo)
    (rid pid : String) (room : GameRoom) (r1 : String)
    (hc : mapGet s.clients ws = some info)
    (hr : info.roomId = some rid) (hrne : rid ≠ "")
    (hp : info.playerId = some pid) (hpne : pid ≠ "")
    (hroom : mapGet s.rooms rid = some room)
    (hne : r1 ≠ rid) :
    mapGet (handleDisconnect s ws).1.rooms r1 = mapGet s.rooms r1 := by
  have hfr : falsy info.roomId = false := by simp [falsy, hr, hrne]
  have hfp : falsy info.playerId = false := by simp [falsy, hp, hpne]
  unfold handleDisconnect
  simp only [hc, hfr, hfp, Bool.not_false, Bool.and_self, if_true]
  unfold handlePlayerDisconnect
  rw [hr, hp]
  simp only [Option.getD_some, hroom]
  by_cases h0 : ((room.removePlayer pid).getPlayerCount == 0) = true
  · rw [if_pos h0]
    exact mapGet_mapDelete_ne _ _ _ hne
  · rw [if_neg h0]
    exact mapGet_mapSet_ne _ _ _ _ hne

/-- C3 (amended): after a connection with roomId and playerId set disconnects,
the disconnect message carrying its playerId is broadcast over the pre-removal
membership of its room (so the broadcast happens before the member is removed)
and is delivered to every remaining member whose channel is still open; if the
disconnecting member was the last member the room is deleted from the Room
Table; and the Channel Registry no longer contains the connection.  (As stated
the claim is false: a remaining member whose own channel is already closed — a
stale entry left by a double join — receives nothing; see the counterexample.) -/
theorem c3_disconnect_cleanup (s : ServerState) (ws : Conn) (info : ClientInfo)
    (rid pid : String)
    (hc : mapGet s.clients ws = some info)
    (hr : info.roomId = some rid) (hrne : rid ≠ "")
    (hp : info.playerId = some pid) (hpne : pid ≠ "") :
    (∀ room, mapGet s.rooms rid = some room →
        (step s (Event.disconnect ws)).2 =
          room.broadcastToRoom (s.openConns.erase ws) (disconnectMsg pid) none) ∧
    (∀ room, mapGet s.rooms rid = some room →
        ∀ q pl, (q, pl) ∈ room.players →
          (s.openConns.erase ws).contains pl.ws = true →
            (pl.ws, disconnectMsg pid) ∈ (step s (Event.disconnect ws)).2) ∧
    (∀ room, mapGet s.rooms rid = some room →
        (room.removePlayer pid).getPlayerCount = 0 →
          mapGet (step s (Event.disconnect ws)).1.rooms rid = none) ∧
    mapGet (step s (Event.disconnect ws)).1.clients ws = none := by
  have hstep : step s (Event.disconnect ws) =
      handleDisconnect { s with openConns := s.openConns.erase ws } ws := rfl
  have hc0 : mapGet ({ s with openConns := s.openConns.erase ws } : ServerState).clients ws =
      some info := hc
  refine ⟨?_, ?_, ?_, ?_⟩
  · intro room hroom
    rw [hstep]
    exact handleDisconnect_sends _ ws info rid pid room hc0 hr hrne hp hpne hroom
  · intro room hroom q pl hmem hopen
    rw [hstep,
      handleDisconnect_sends _ ws info rid pid room hc0 hr hrne hp hpne hroom]
    exact (mem_broadcastToRoom room _ _ none pl.ws (disconnectMsg pid)).mpr
      ⟨rfl, q, pl, hmem, rfl, by simp, hopen⟩
  · intro room hroom hzero
    rw [hstep,
      handleDisconnect_inRoom_rooms_self _ ws info rid pid room hc0 hr hrne hp hpne hroom]
    simp [hzero]
  · rw [hstep]
    exact handleDisconnect_clients_self _ ws

def pairState : ServerState :=
  runEvents initState
    [Event.connect 0, Event.connect 1, joinFrame 0 "r" "p1", joinFrame 1 "r" "p2"]

/-- Witness for C3 at a two-member room: the leaver p1 triggers a disconnect
broadcast computed over the pre-removal membership, and its registry entry is
gone afterwards. -/
theorem c3_disconnect_cleanup_witness :
    (step pairState (Event.disconnect 0)).2 =
      GameRoom.broadcastToRoom ⟨"r", [("p1", ⟨0, "0"⟩), ("p2", ⟨1, "1"⟩)], ["p1", "p2"]⟩
        (pairState.openConns.erase 0) (disconnectMsg "p1") none :=
  (c3_disconnect_cleanup pairState 0 ⟨"0", some "r", some "p1"⟩ "r" "p1"
    (by decide) rfl (by decide) rfl (by decide)).1 _ (by decide)

def c3ceEvents : List Event :=
  [Event.connect 0, Event.connect 1, joinFrame 0 "r1" "p1", joinFrame 0 "r2" "p2",
   joinFrame 1 "r1" "p3", Event.disconnect 0]

/-- Counterexample to C3 as stated: connection 0 joins r1 as p1, then joins r2
as p2 (its ClientInfo now points to r2, leaving a stale member p1 in r1 whose
channel closes when 0 disconnects); connection 1 is in r1 as p3.  When
connection 1 disconnects while having roomId r1 and playerId p3 set, the
remaining member p1 is present in r1, yet no send at all is performed: the
disconnect message is not delivered to the remaining member. -/
theorem c3_counterexample :
    mapGet (runEvents initState c3ceEvents).clients 1 =
      some ⟨"1", some "r1", some "p3"⟩ ∧
    ((mapGet (runEvents initState c3ceEvents).rooms "r1").getD
        ⟨"r1", [], []⟩).hasPlayer "p1" = true ∧
    (step (runEvents initState c3ceEvents) (Event.disconnect 1)).2 = [] := by
  decide

/-- C10: from any state where the registry entry of a connection records room
R1 and player P1, a valid join_room for another room R2 with a fresh player id
P2 succeeds: the connection becomes a member of R2, its ClientInfo is
overwritten, and the room at R1 is left completely unchanged; a subsequent
disconnect removes the member only from R2 (the room recorded in the
ClientInfo), again leaving the room at R1 — including any stale member entry —
unchanged, and drops the registry entry. -/
theorem c10_double_join_stale (s : ServerState) (ws : Conn) (cid r1 p1 r2 p2 : String)
    (hc : mapGet s.clients ws = some ⟨cid, some r1, some p1⟩)
    (hr2ne : r2 ≠ "") (hp2ne : p2 ≠ "") (hdiff : r2 ≠ r1)
    (hnm : (roomAfterCreate s r2).hasPlayer p2 = false) :
    mapGet (runEvents s [joinFrame ws r2 p2]).clients ws =
      some ⟨cid, some r2, some p2⟩ ∧
    (∃ room2, mapGet (runEvents s [joinFrame ws r2 p2]).rooms r2 = some room2 ∧
       mapGet room2.players p2 = some ⟨ws, cid⟩) ∧
    mapGet (runEvents s [joinFrame ws r2 p2]).rooms r1 = mapGet s.rooms r1 ∧
    mapGet (runEvents s [joinFrame ws r2 p2, Event.disconnect ws]).rooms r1 =
      mapGet s.rooms r1 ∧
    (∀ room2,
        mapGet (runEvents s [joinFrame ws r2 p2, Event.disconnect ws]).rooms r2 =
          some room2 → mapGet room2.players p2 = none) ∧
    mapGet (runEvents s [joinFrame ws r2 p2, Event.disconnect ws]).clients ws = none := by
  have hf : (falsy (some r2) || falsy (some p2)) = false := by
    simp [falsy, hr2ne, hp2ne]
  have hsucc := handleJoinRoom_success s ws (some r2) (some p2)
    ⟨cid, some r1, some p1⟩ hc hf (by simpa using hnm)
  simp only [Option.getD_some] at hsucc
  set newRoom := ((roomAfterCreate s r2).addPlayer s.openConns ws cid p2).1 with hnew
  have hs1 : runEvents s [joinFrame ws r2 p2] =
      { rooms := mapSet s.rooms r2 newRoom,
        clients := mapSet s.clients ws ⟨cid, some r2, some p2⟩,
        openConns := s.openConns, nextId := s.nextId } := by
    show (step s (Event.frame ws (some ⟨"join_room", some r2, some p2, none, none⟩))).1 = _
    rw [step_join_eq s ws (some r2) (some p2) none none, hsucc]
  have hs2 : runEvents s [joinFrame ws r2 p2, Event.disconnect ws] =
      (handleDisconnect
        { rooms := mapSet s.rooms r2 newRoom,
          clients := mapSet s.clients ws ⟨cid, some r2, some p2⟩,
          openConns := s.openConns.erase ws, nextId := s.nextId } ws).1 := by
    show (step (runEvents s [joinFrame ws r2 p2]) (Event.disconnect ws)).1 = _
    rw [hs1]
    rfl
  have hcl : mapGet
      ({ rooms := mapSet s.rooms r2 newRoom,
         clients := mapSet s.clients ws ⟨cid, some r2, some p2⟩,
         openConns := s.openConns.erase ws, nextId := s.nextId } : ServerState).clients ws =
      some ⟨cid, some r2, some p2⟩ := mapGet_mapSet_self _ _ _
  have hro : mapGet
      ({ rooms := mapSet s.rooms r2 newRoom,
         clients := mapSet s.clients ws ⟨cid, some r2, some p2⟩,
         openConns := s.openConns.erase ws, nextId := s.nextId } : ServerState).rooms r2 =
      some newRoom := mapGet_mapSet_self _ _ _
  have hmemb : mapGet newRoom.players p2 = some ⟨ws, cid⟩ := by
    rw [hnew, GameRoom.addPlayer_fst]
    exact mapGet_mapSet_self _ _ _
  refine ⟨?_, ⟨newRoom, ?_, hmemb⟩, ?_, ?_, ?_, ?_⟩
  · rw [hs1]
    exact mapGet_mapSet_self _ _ _
  · rw [hs1]
    exact mapGet_mapSet_self _ _ _
  · rw [hs1]
    exact mapGet_mapSet_ne _ _ _ _ (fun h => hdiff h.symm)
  · rw [hs2,
      handleDisconnect_inRoom_rooms_ne _ ws ⟨cid, some r2, some p2⟩ r2 p2 newRoom r1
        hcl rfl hr2ne rfl hp2ne hro (fun h => hdiff h.symm)]
    exact mapGet_mapSet_ne _ _ _ _ (fun h => hdiff h.symm)
  · intro room2 hres
    rw [hs2,
      handleDisconnect_inRoom_rooms_self _ ws ⟨cid, some r2, some p2⟩ r2 p2 newRoom
        hcl rfl hr2ne rfl hp2ne hro] at hres
    by_cases h0 : ((newRoom.removePlayer p2).getPlayerCount == 0) = true
    · rw [if_pos h0] at hres
      exact absurd hres (by simp)
    · rw [if_neg h0] at hres
      have hrm : newRoom.removePlayer p2 = room2 := Option.some.inj hres
      rw [← hrm, GameRoom.removePlayer]
      exact mapGet_mapDelete_self _ _
  · rw [hs2]
    exact handleDisconnect_clients_self _ ws

def c10State : ServerState :=
  runEvents initState [Event.connect 0, joinFrame 0 "r1" "p1"]

/-- Witness for C10 at a concrete state: after joining r1 as p1, connection 0
joins r2 as p2; its ClientInfo is overwritten and a later disconnect leaves
room r1 untouched. -/
theorem c10_double_join_stale_witness :
    mapGet (runEvents c10State [joinFrame 0 "r2" "p2"]).clients 0 =
      some ⟨"0", some "r2", some "p2"⟩ ∧
    mapGet (runEvents c10State [joinFrame 0 "r2" "p2", Event.disconnect 0]).rooms "r1" =
      mapGet c10State.rooms "r1" :=
  ⟨(c10_double_join_stale c10State 0 "0" "r1" "p1" "r2" "p2"
      (by decide) (by decide) (by decide) (by decide) (by decide)).1,
   (c10_double_join_stale c10State 0 "0" "r1" "p1" "r2" "p2"
      (by decide) (by decide) (by decide) (by decide) (by decide)).2.2.2.1⟩

/-! Serialization key sets (claim C6). -/

/-- Field sets of the outbound message types as the specification lists them. -/
def specKeys : String → List String
  | "game_started" => ["type"]
  | "chat" => ["type", "playerId", "displayName", "message"]
  | "action_complete" => ["type", "playerId"]
  | "game_over" => ["type", "playerId"]
  | "disconnect" => ["type", "playerId"]
  | _ => []

/-- The object carries a string type tag t and serializes to exactly the
field set the specification gives for t. -/
def outKeysOk (msg : JObj) : Prop :=
  ∃ t, mapGet msg "type" = some (JVal.str t) ∧ serializedKeys msg = specKeys t

theorem jnull_ne_undef (o : Option String) : jnull o ≠ JVal.undef := by
  cases o <;> simp [jnull]

theorem serializedKeys_cons (k : String) (v : JVal) (o : JObj) :
    serializedKeys ((k, v) :: o) =
      if v = JVal.undef then serializedKeys o else k :: serializedKeys o := by
  by_cases h : v = JVal.undef
  · subst h
    simp [serializedKeys, List.filter_cons]
  · rw [if_neg h]
    simp [serializedKeys, List.filter_cons, bne_iff_ne.mpr h]

theorem outKeysOk_gameStarted : outKeysOk gameStartedMsg :=
  ⟨"game_started", by decide, by decide⟩

theorem outKeysOk_chat (pid : Option String) (d mm : String) :
    outKeysOk (chatMsg pid (some d) (some mm)) := by
  refine ⟨"chat", by simp [chatMsg, mapGet], ?_⟩
  rw [chatMsg, serializedKeys_cons, serializedKeys_cons, serializedKeys_cons,
    serializedKeys_cons]
  simp [jundef, jnull_ne_undef pid, serializedKeys, specKeys]

theorem outKeysOk_actionComplete (pid : Option String) :
    outKeysOk (actionCompleteMsg pid) := by
  refine ⟨"action_complete", by simp [actionCompleteMsg, mapGet], ?_⟩
  rw [actionCompleteMsg, serializedKeys_cons, serializedKeys_cons]
  simp [jnull_ne_undef pid, serializedKeys, specKeys]

theorem outKeysOk_gameOver (pid : Option String) :
    outKeysOk (gameOverMsg pid) := by
  refine ⟨"game_over", by simp [gameOverMsg, mapGet], ?_⟩
  rw [gameOverMsg, serializedKeys_cons, serializedKeys_cons]
  simp [jnull_ne_undef pid, serializedKeys, specKeys]

theorem outKeysOk_disconnect (pid : String) : outKeysOk (disconnectMsg pid) := by
  refine ⟨"disconnect", by simp [disconnectMsg, mapGet], ?_⟩
  rw [disconnectMsg, serializedKeys_cons, serializedKeys_cons]
  simp [serializedKeys, specKeys]

/-! Payload lemmas: every send a handler performs carries one of the five
outbound message shapes. -/

theorem GameRoom.addPlayer_sends (room : GameRoom) (o : List Conn) (ws : Conn)
    (cid pid : String) (c : Conn) (msg : JObj)
    (h : (c, msg) ∈ (room.addPlayer o ws cid pid).2) : msg = gameStartedMsg := by
  simp only [GameRoom.addPlayer] at h
  split at h
  · exact broadcastToRoom_payload _ _ _ _ _ _ h
  · simp at h

theorem handleJoinRoom_sends_payload (s : ServerState) (ws : Conn)
    (mr mp : Option String) (c : Conn) (msg : JObj)
    (h : (c, msg) ∈ (handleJoinRoom s ws mr mp).2) : msg = gameStartedMsg := by
  unfold handleJoinRoom at h
  cases hc : mapGet s.clients ws with
  | none => simp [hc] at h
  | some ci =>
    simp only [hc] at h
    by_cases hf : (falsy mr || falsy mp) = true
    · rw [if_pos hf] at h
      simp at h
    · rw [if_neg hf] at h
      split at h
      · simp at h
      · split at h
        · simp at h
        · exact GameRoom.addPlayer_sends _ _ _ _ _ _ _ h

theorem handleChat_sends (s : ServerState) (ws : Conn) (m : Message)
    (c : Conn) (msg : JObj)
    (h : (c, msg) ∈ (handleChat s ws m).2) :
    ∃ ci, mapGet s.clients ws = some ci ∧
      msg = chatMsg ci.playerId m.displayName m.message := by
  unfold handleChat at h
  cases hc : mapGet s.clients ws with
  | none => simp [hc] at h
  | some ci =>
    simp only [hc] at h
    by_cases hf : falsy ci.roomId = true
    · rw [if_pos hf] at h
      simp at h
    · rw [if_neg hf] at h
      cases hr : mapGet s.rooms (ci.roomId.getD "") with
      | none => simp [hr] at h
      | some room =>
        simp only [hr] at h
        exact ⟨ci, rfl, broadcastToRoom_payload _ _ _ _ _ _ h⟩

theorem handleActionComplete_sends (s : ServerState) (ws : Conn) (m : Message)
    (c : Conn) (msg : JObj)
    (h : (c, msg) ∈ (handleActionComplete s ws m).2) :
    ∃ ci, mapGet s.clients ws = some ci ∧ msg = actionCompleteMsg ci.playerId := by
  unfold handleActionComplete at h
  cases hc : mapGet s.clients ws with
  | none => simp [hc] at h
  | some ci =>
    simp only [hc] at h
    by_cases hf : falsy ci.roomId = true
    · rw [if_pos hf] at h
      simp at h
    · rw [if_neg hf] at h
      cases hr : mapGet s.rooms (ci.roomId.getD "") with
      | none => simp [hr] at h
      | some room =>
        simp only [hr] at h
        exact ⟨ci, rfl, broadcastToRoom_payload _ _ _ _ _ _ h⟩

theorem handleGameOver_sends (s : ServerState) (ws : Conn) (m : Message)
    (c : Conn) (msg : JObj)
    (h : (c, msg) ∈ (handleGameOver s ws m).2) :
    ∃ ci, mapGet s.clients ws = some ci ∧ msg = gameOverMsg ci.playerId := by
  unfold handleGameOver at h
  cases hc : mapGet s.clients ws with
  | none => simp [hc] at h
  | some ci =>
    simp only [hc] at h
    by_cases hf : falsy ci.roomId = true
    · rw [if_pos hf] at h
      simp at h
    · rw [if_neg hf] at h
      cases hr : mapGet s.rooms (ci.roomId.getD "") with
      | none => simp [hr] at h
      | some room =>
        simp only [hr] at h
        exact ⟨ci, rfl, broadcastToRoom_payload _ _ _ _ _ _ h⟩

theorem handlePlayerDisconnect_sends_payload (s : ServerState) (rid pid : String)
    (c : Conn) (msg : JObj)
    (h : (c, msg) ∈ (handlePlayerDisconnect s rid pid).2) : msg = disconnectMsg pid := by
  unfold handlePlayerDisconnect at h
  cases hr : mapGet s.rooms rid with
  | none => simp [hr] at h
  | some room =>
    simp only [hr] at h
    exact broadcastToRoom_payload _ _ _ _ _ _ h

theorem handleDisconnect_sends_payload (s : ServerState) (ws : Conn)
    (c : Conn) (msg : JObj)
    (h : (c, msg) ∈ (handleDisconnect s ws).2) : ∃ pid, msg = disconnectMsg pid := by
  unfold handleDisconnect at h
  cases hc : mapGet s.clients ws with
  | none => simp [hc] at h
  | some ci =>
    simp only [hc] at h
    by_cases hcond : (!falsy ci.roomId && !falsy ci.playerId) = true
    · rw [if_pos hcond] at h
      exact ⟨_, handlePlayerDisconnect_sends_payload _ _ _ _ _ h⟩
    · rw [if_neg hcond] at h
      simp at h

/-- C6 (amended): every message a handler sends carries a string type tag and
serializes to exactly the field set the specification gives for that tag,
provided an inbound chat payload carries displayName and message.  (As stated
the claim is false: an inbound chat with a missing displayName produces an
outbound chat object whose serialized form lacks the displayName key, because
JSON.stringify drops undefined values; see the counterexample.) -/
theorem c6_outbound_keys (s : ServerState) (e : Event)
    (hchat : ∀ ws m, e = Event.frame ws (some m) → m.mtype = "chat" →
        m.displayName ≠ none ∧ m.message ≠ none) :
    ∀ c msg, (c, msg) ∈ (step s e).2 → outKeysOk msg := by
  intro c msg h
  cases e with
  | connect ws => simp [step] at h
  | disconnect ws =>
    have h2 : (c, msg) ∈
        (handleDisconnect { s with openConns := s.openConns.erase ws } ws).2 := h
    obtain ⟨pid, hmsg⟩ := handleDisconnect_sends_payload _ _ _ _ h2
    rw [hmsg]
    exact outKeysOk_disconnect pid
  | frame ws decoded =>
    cases decoded with
    | none => simp [step] at h
    | some m =>
      have hh : (c, msg) ∈ (handleMessage s ws m).2 := h
      unfold handleMessage at hh
      cases hc : mapGet s.clients ws with
      | none => simp [hc] at hh
      | some ci =>
        simp only [hc] at hh
        by_cases h1 : (m.mtype == "join_room") = true
        · rw [if_pos h1] at hh
          rw [handleJoinRoom_sends_payload _ _ _ _ _ _ hh]
          exact outKeysOk_gameStarted
        · rw [if_neg h1] at hh
          by_cases h2 : (m.mtype == "chat") = true
          · rw [if_pos h2] at hh
            obtain ⟨ci2, _, hmsg⟩ := handleChat_sends _ _ _ _ _ hh
            obtain ⟨hdn, hmm⟩ := hchat ws m rfl (beq_iff_eq.mp h2)
            obtain ⟨d, hd⟩ := Option.ne_none_iff_exists'.mp hdn
            obtain ⟨mm2, hm2⟩ := Option.ne_none_iff_exists'.mp hmm
            rw [hmsg, hd, hm2]
            exact outKeysOk_chat _ _ _
          · rw [if_neg h2] at hh
            by_cases h3 : (m.mtype == "game_over") = true
            · rw [if_pos h3] at hh
              obtain ⟨ci2, _, hmsg⟩ := handleGameOver_sends _ _ _ _ _ hh
              rw [hmsg]
              exact outKeysOk_gameOver _
            · rw [if_neg h3] at hh
              by_cases h4 : (m.mtype == "action_complete") = true
              · rw [if_pos h4] at hh
                obtain ⟨ci2, _, hmsg⟩ := handleActionComplete_sends _ _ _ _ _ hh
                rw [hmsg]
                exact outKeysOk_actionComplete _
              · rw [if_neg h4] at hh
                simp at hh

/-- Witness for C6: the chat relayed between the two members of a full room
serializes to exactly the specified chat field set. -/
theorem c6_outbound_keys_witness :
    outKeysOk (chatMsg (some "p1") (some "Al") (some "hi")) :=
  c6_outbound_keys pairState
    (Event.frame 0 (some ⟨"chat", none, none, some "Al", some "hi"⟩))
    (by
      intro ws m he hm
      injection he with h1 h2
      injection h2 with h3
      subst h3
      exact ⟨by simp, by simp⟩)
    0 (chatMsg (some "p1") (some "Al") (some "hi")) (by decide)

/-- Counterexample to C6 as stated: an inbound chat without displayName makes
the handler broadcast a chat object whose serialized field set lacks the
displayName key, so it differs from the field set in the specification. -/
theorem c6_counterexample :
    (step pairState (Event.frame 0 (some ⟨"chat", none, none, none, some "hi"⟩))).2 =
      [(0, chatMsg (some "p1") none (some "hi")),
       (1, chatMsg (some "p1") none (some "hi"))] ∧
    serializedKeys (chatMsg (some "p1") none (some "hi")) ≠ specKeys "chat" := by
  decide

/-! Characterization of the game_started broadcast (claim C2). -/

/-- Guards under which handleJoinRoom actually inserts a member: registered
sender, truthy roomId and playerId, and the playerId not already in the room. -/
def joinSucceeds (s : ServerState) (ws : Conn) (roomId playerId : Option String) : Prop :=
  (mapGet s.clients ws).isSome = true ∧
  (falsy roomId || falsy playerId) = false ∧
  (roomAfterCreate s (roomId.getD "")).hasPlayer (playerId.getD "") = false

/-- Room state right after the insertion performed by a successful join. -/
def roomAfterJoin (s : ServerState) (ws : Conn) (rid pid : String) : GameRoom :=
  ((roomAfterCreate s rid).addPlayer s.openConns ws
      (((mapGet s.clients ws).getD ⟨"", none, none⟩).id) pid).1

theorem GameRoom.addPlayer_snd (room : GameRoom) (o : List Conn) (ws : Conn)
    (cid pid : String) :
    (room.addPlayer o ws cid pid).2 =
      if ((room.addPlayer o ws cid pid).1.getPlayerCount == 2) = true
      then (room.addPlayer o ws cid pid).1.broadcastToRoom o gameStartedMsg none
      else [] := by
  rw [GameRoom.addPlayer_fst]
  simp only [GameRoom.addPlayer, GameRoom.getPlayerCount]
  split
  next h => rfl
  next h => rfl

theorem handleJoinRoom_sends_eq (s : ServerState) (ws : Conn) (mr mp : Option String)
    (ci : ClientInfo)
    (hc : mapGet s.clients ws = some ci)
    (hf : (falsy mr || falsy mp) = false)
    (hnp : (roomAfterCreate s (mr.getD "")).hasPlayer (mp.getD "") = false) :
    (handleJoinRoom s ws mr mp).2 =
      if ((roomAfterJoin s ws (mr.getD "") (mp.getD "")).getPlayerCount == 2) = true
      then (roomAfterJoin s ws (mr.getD "") (mp.getD "")).broadcastToRoom
        s.openConns gameStartedMsg none
      else [] := by
  have hrj : roomAfterJoin s ws (mr.getD "") (mp.getD "") =
      ((roomAfterCreate s (mr.getD "")).addPlayer s.openConns ws ci.id (mp.getD "")).1 := by
    unfold roomAfterJoin
    rw [hc]
    rfl
  rw [handleJoinRoom_success s ws mr mp ci hc hf hnp, hrj]
  exact GameRoom.addPlayer_snd _ _ _ _ _

theorem handleJoinRoom_mem_sends (s : ServerState) (ws : Conn) (mr mp : Option String)
    (c : Conn) (msg : JObj)
    (h : (c, msg) ∈ (handleJoinRoom s ws mr mp).2) :
    joinSucceeds s ws mr mp ∧
    (roomAfterJoin s ws (mr.getD "") (mp.getD "")).getPlayerCount = 2 := by
  cases hc : mapGet s.clients ws with
  | none =>
    rw [handleJoinRoom_noClient s ws mr mp hc] at h
    simp at h
  | some ci =>
    by_cases hf : (falsy mr || falsy mp) = true
    · rw [handleJoinRoom_falsy s ws mr mp hf] at h
      simp at h
    · have hf2 : (falsy mr || falsy mp) = false := by simpa using hf
      by_cases hp : (roomAfterCreate s (mr.getD "")).hasPlayer (mp.getD "") = true
      · cases hg : mapGet s.rooms (mr.getD "") with
        | none =>
          rw [roomAfterCreate, hg] at hp
          simp [GameRoom.hasPlayer, mapGet] at hp
        | some room =>
          have hroom : roomAfterCreate s (mr.getD "") = room := by
            simp [roomAfterCreate, hg]
          rw [handleJoinRoom_dup s ws mr mp room hf2 hg (hroom ▸ hp)] at h
          simp at h
      · have hp2 : (roomAfterCreate s (mr.getD "")).hasPlayer (mp.getD "") = false := by
          simpa using hp
        rw [handleJoinRoom_sends_eq s ws mr mp ci hc hf2 hp2] at h
        by_cases h2 : ((roomAfterJoin s ws (mr.getD "") (mp.getD "")).getPlayerCount == 2) = true
        · exact ⟨⟨by simp [hc], hf2, hp2⟩, beq_iff_eq.mp h2⟩
        · rw [if_neg h2] at h
          simp at h

/-- C2 (amended): a game_started broadcast is emitted at precisely those steps
at which a join_room event successfully inserts a member and thereby brings
the room member count to exactly 2: a successful join to count 2 broadcasts
game_started to the open members of the updated room, any other join emits
nothing, and no event other than such a join ever emits a game_started send.
(As stated the claim is false: after a member leaves, a later join can bring
the count back to 2 and trigger a second game_started broadcast for the same
room, so the broadcast is not emitted exactly once per room; see the
counterexample.) -/
theorem c2_game_started_iff (s : ServerState) (ws : Conn) (m : Message)
    (hjoin : m.mtype = "join_room") :
    (joinSucceeds s ws m.roomId m.playerId →
       ((roomAfterJoin s ws (m.roomId.getD "") (m.playerId.getD "")).getPlayerCount = 2 →
          (step s (Event.frame ws (some m))).2 =
            (roomAfterJoin s ws (m.roomId.getD "") (m.playerId.getD "")).broadcastToRoom
              s.openConns gameStartedMsg none) ∧
       ((roomAfterJoin s ws (m.roomId.getD "") (m.playerId.getD "")).getPlayerCount ≠ 2 →
          (step s (Event.frame ws (some m))).2 = [])) ∧
    (¬ joinSucceeds s ws m.roomId m.playerId →
       (step s (Event.frame ws (some m))).2 = []) ∧
    (∀ e c, (c, gameStartedMsg) ∈ (step s e).2 →
       ∃ ws2 m2, e = Event.frame ws2 (some m2) ∧ m2.mtype = "join_room" ∧
         joinSucceeds s ws2 m2.roomId m2.playerId ∧
         (roomAfterJoin s ws2 (m2.roomId.getD "") (m2.playerId.getD "")).getPlayerCount = 2) := by
  have hd : step s (Event.frame ws (some m)) = handleJoinRoom s ws m.roomId m.playerId := by
    obtain ⟨t, mr, mp, dn, mm⟩ := m
    simp only at hjoin
    subst hjoin
    exact step_join_eq s ws mr mp dn mm
  refine ⟨?_, ?_, ?_⟩
  · rintro ⟨hsome, hf, hnp⟩
    obtain ⟨ci, hc⟩ := Option.isSome_iff_exists.mp hsome
    constructor
    · intro hcount
      rw [hd, handleJoinRoom_sends_eq s ws m.roomId m.playerId ci hc hf hnp,
        if_pos (beq_iff_eq.mpr hcount)]
    · intro hcount
      rw [hd, handleJoinRoom_sends_eq s ws m.roomId m.playerId ci hc hf hnp,
        if_neg (fun hh => hcount (beq_iff_eq.mp hh))]
  · intro hns
    rw [hd]
    cases hc : mapGet s.clients ws with
    | none => exact congrArg Prod.snd (handleJoinRoom_noClient s ws m.roomId m.playerId hc)
    | some ci =>
      by_cases hf : (falsy m.roomId || falsy m.playerId) = true
      · exact congrArg Prod.snd (handleJoinRoom_falsy s ws m.roomId m.playerId hf)
      · have hf2 : (falsy m.roomId || falsy m.playerId) = false := by simpa using hf
        by_cases hp : (roomAfterCreate s (m.roomId.getD "")).hasPlayer (m.playerId.getD "") = true
        · cases hg : mapGet s.rooms (m.roomId.getD "") with
          | none =>
            rw [roomAfterCreate, hg] at hp
            simp [GameRoom.hasPlayer, mapGet] at hp
          | some room =>
            have hroom : roomAfterCreate s (m.roomId.getD "") = room := by
              simp [roomAfterCreate, hg]
            exact congrArg Prod.snd
              (handleJoinRoom_dup s ws m.roomId m.playerId room hf2 hg (hroom ▸ hp))
        · exact absurd ⟨by simp [hc], hf2, by simpa using hp⟩ hns
  · intro e c hmem
    cases e with
    | connect ws2 => simp [step] at hmem
    | disconnect ws2 =>
      have h2 : (c, gameStartedMsg) ∈
          (handleDisconnect { s with openConns := s.openConns.erase ws2 } ws2).2 := hmem
      obtain ⟨pid, hmsg⟩ := handleDisconnect_sends_payload _ _ _ _ h2
      exact absurd hmsg (by simp [gameStartedMsg, disconnectMsg])
    | frame ws2 decoded =>
      cases decoded with
      | none => simp [step] at hmem
      | some m2 =>
        have hh : (c, gameStartedMsg) ∈ (handleMessage s ws2 m2).2 := hmem
        unfold handleMessage at hh
        cases hc : mapGet s.clients ws2 with
        | none => simp [hc] at hh
        | some ci =>
          simp only [hc] at hh
          by_cases h1 : (m2.mtype == "join_room") = true
          · rw [if_pos h1] at hh
            obtain ⟨hsucc, hcount⟩ := handleJoinRoom_mem_sends s ws2 m2.roomId m2.playerId c
              gameStartedMsg hh
            exact ⟨ws2, m2, rfl, beq_iff_eq.mp h1, hsucc, hcount⟩
          · rw [if_neg h1] at hh
            by_cases h2 : (m2.mtype == "chat") = true
            · rw [if_pos h2] at hh
              obtain ⟨ci2, _, hmsg⟩ := handleChat_sends _ _ _ _ _ hh
              exact absurd hmsg (by simp [gameStartedMsg, chatMsg])
            · rw [if_neg h2] at hh
              by_cases h3 : (m2.mtype == "game_over") = true
              · rw [if_pos h3] at hh
                obtain ⟨ci2, _, hmsg⟩ := handleGameOver_sends _ _ _ _ _ hh
                exact absurd hmsg (by simp [gameStartedMsg, gameOverMsg])
              · rw [if_neg h3] at hh
                by_cases h4 : (m2.mtype == "action_complete") = true
                · rw [if_pos h4] at hh
                  obtain ⟨ci2, _, hmsg⟩ := handleActionComplete_sends _ _ _ _ _ hh
                  exact absurd hmsg (by simp [gameStartedMsg, actionCompleteMsg])
                · rw [if_neg h4] at hh
                  simp at hh

def c2WState : ServerState :=
  runEvents initState [Event.connect 0, Event.connect 1, joinFrame 0 "r" "p1"]

/-- Witness for C2 at a concrete state: the join that makes the member
count 2 broadcasts game_started to both open members. -/
theorem c2_game_started_iff_witness :
    (step c2WState (Event.frame 1 (some (joinMsg "r" "p2")))).2 =
      (roomAfterJoin c2WState 1 "r" "p2").broadcastToRoom
        c2WState.openConns gameStartedMsg none :=
  ((c2_game_started_iff c2WState 1 (joinMsg "r" "p2") rfl).1
    ⟨by decide, by decide, by decide⟩).1 (by decide)

def c2ceEvents : List Event :=
  [Event.connect 0, Event.connect 1, Event.connect 2,
   joinFrame 0 "r" "p1", joinFrame 1 "r" "p2", Event.disconnect 1, joinFrame 2 "r" "p3"]

/-- Counterexample to C2 as stated: all events of this trace target the single
room r, yet two distinct steps emit a game_started send — once when p2 joins
and again when p3 joins after p2 left — so the broadcast is not emitted
exactly once per room, and the second broadcast is triggered by the third
distinct participant. -/
theorem c2_counterexample :
    ((runOutputs initState c2ceEvents).filter
      (fun out => out.any (fun cm => cm.2 == gameStartedMsg))).length = 2 := by
  decide

/-! Trace invariant bounding room membership (claim C1). -/

/-- Member ids of an optional room. -/
def roomKeysOf : Option GameRoom → List String
  | none => []
  | some room => room.players.map Prod.fst

/-- Member ids of the room at rid, or [] when absent. -/
def roomKeys (s : ServerState) (rid : String) : List String :=
  roomKeysOf (mapGet s.rooms rid)

/-- Player ids carried by the join_room frames of a trace that target the
room rid. -/
def joinPids (rid : String) : List Event → List String
  | [] => []
  | Event.frame _ (some m) :: es =>
      (if m.mtype = "join_room" ∧ m.roomId = some rid
       then m.playerId.toList else []) ++ joinPids rid es
  | _ :: es => joinPids rid es

theorem joinPids_cons (rid : String) (e : Event) (es : List Event) :
    joinPids rid (e :: es) = joinPids rid [e] ++ joinPids rid es := by
  cases e with
  | connect ws => simp [joinPids]
  | disconnect ws => simp [joinPids]
  | frame ws decoded =>
    cases decoded with
    | none => simp [joinPids]
    | some m => simp [joinPids]

theorem roomKeysOf_roomAfterCreate (s : ServerState) (rid : String) :
    (roomAfterCreate s rid).players.map Prod.fst = roomKeys s rid := by
  unfold roomAfterCreate roomKeys roomKeysOf
  cases mapGet s.rooms rid <;> simp

theorem falsy_false_some (o : Option String) (h : falsy o = false) :
    o = some (o.getD "") := by
  cases o with
  | none => simp [falsy] at h
  | some t => rfl

theorem handlePlayerDisconnect_roomKeys (s : ServerState) (rid2 pid rid : String) :
    roomKeys (handlePlayerDisconnect s rid2 pid).1 rid ⊆ roomKeys s rid := by
  unfold handlePlayerDisconnect
  cases hr : mapGet s.rooms rid2 with
  | none => exact fun a ha => ha
  | some room =>
    simp only [hr]
    by_cases h0 : ((room.removePlayer pid).getPlayerCount == 0) = true
    · rw [if_pos h0]
      by_cases he : rid = rid2
      · subst he
        intro a ha
        rw [roomKeys] at ha
        simp only [mapGet_mapDelete_self] at ha
        simp [roomKeysOf] at ha
      · intro a ha
        rw [roomKeys] at ha
        simp only [mapGet_mapDelete_ne _ _ _ he] at ha
        exact ha
    · rw [if_neg h0]
      by_cases he : rid = rid2
      · subst he
        intro a ha
        rw [roomKeys] at ha
        simp only [mapGet_mapSet_self] at ha
        rw [roomKeys, hr]
        simp only [roomKeysOf, GameRoom.removePlayer] at ha ⊢
        exact (keys_mapDelete_sublist _ _).subset ha
      · intro a ha
        rw [roomKeys] at ha
        simp only [mapGet_mapSet_ne _ _ _ _ he] at ha
        exact ha

theorem handleDisconnect_roomKeys (s : ServerState) (ws : Conn) (rid : String) :
    roomKeys (handleDisconnect s ws).1 rid ⊆ roomKeys s rid := by
  unfold handleDisconnect
  cases hc : mapGet s.clients ws with
  | none => exact fun a ha => ha
  | some ci =>
    simp only [hc]
    by_cases hcond : (!falsy ci.roomId && !falsy ci.playerId) = true
    · rw [if_pos hcond]
      exact handlePlayerDisconnect_roomKeys s _ _ rid
    · rw [if_neg hcond]
      exact fun a ha => ha

theorem roomKeys_step_subset (s : ServerState) (e : Event) (rid : String) :
    roomKeys (step s e).1 rid ⊆ roomKeys s rid ++ joinPids rid [e] := by
  have hsub : ∀ l l2 : List String, l ⊆ l ++ l2 := fun l l2 a ha => List.mem_append_left _ ha
  cases e with
  | connect ws => exact hsub _ _
  | disconnect ws =>
    intro a ha
    exact List.mem_append_left _
      (handleDisconnect_roomKeys { s with openConns := s.openConns.erase ws } ws rid ha)
  | frame ws decoded =>
    cases decoded with
    | none => exact hsub _ _
    | some m =>
      show roomKeys (handleMessage s ws m).1 rid ⊆ _
      unfold handleMessage
      cases hc : mapGet s.clients ws with
      | none => exact hsub _ _
      | some ci =>
        by_cases h1 : (m.mtype == "join_room") = true
        · rw [if_pos h1]
          by_cases hf : (falsy m.roomId || falsy m.playerId) = true
          · rw [handleJoinRoom_falsy _ _ _ _ hf]
            exact hsub _ _
          · have hf2 : (falsy m.roomId || falsy m.playerId) = false := by simpa using hf
            obtain ⟨hfr, hfp⟩ := Bool.or_eq_false_iff.mp hf2
            by_cases hp : (roomAfterCreate s (m.roomId.getD "")).hasPlayer (m.playerId.getD "") = true
            · cases hg : mapGet s.rooms (m.roomId.getD "") with
              | none =>
                exfalso
                rw [roomAfterCreate, hg] at hp
                simp [GameRoom.hasPlayer, mapGet] at hp
              | some room =>
                have hroom : roomAfterCreate s (m.roomId.getD "") = room := by
                  simp [roomAfterCreate, hg]
                rw [handleJoinRoom_dup s ws m.roomId m.playerId room hf2 hg (hroom ▸ hp)]
                exact hsub _ _
            · have hp2 : (roomAfterCreate s (m.roomId.getD "")).hasPlayer (m.playerId.getD "") = false := by
                simpa using hp
              rw [handleJoinRoom_success s ws m.roomId m.playerId ci hc hf2 hp2]
              by_cases he : rid = m.roomId.getD ""
              · intro a ha
                rw [roomKeys] at ha
                simp only [he, mapGet_mapSet_self] at ha
                rw [roomKeysOf, GameRoom.addPlayer_fst] at ha
                simp only at ha
                rcases List.mem_append.mp (keys_mapSet_subset _ _ _ ha) with h3 | h3
                · rw [roomKeysOf_roomAfterCreate] at h3
                  rw [he]
                  exact List.mem_append_left _ h3
                · apply List.mem_append_right
                  simp only [List.mem_singleton] at h3
                  subst h3
                  have hmr : m.roomId = some (m.roomId.getD "") := falsy_false_some _ hfr
                  have hmp : m.playerId = some (m.playerId.getD "") := falsy_false_some _ hfp
                  rw [joinPids, joinPids]
                  rw [if_pos ⟨beq_iff_eq.mp h1, by rw [hmr, he]⟩]
                  rw [hmp]
                  simp
              · intro a ha
                rw [roomKeys] at ha
                simp only [mapGet_mapSet_ne _ _ _ _ he] at ha
                exact List.mem_append_left _ ha
        · rw [if_neg h1]
          by_cases h2 : (m.mtype == "chat") = true
          · rw [if_pos h2, handleChat_state]
            exact hsub _ _
          · rw [if_neg h2]
            by_cases h3 : (m.mtype == "game_over") = true
            · rw [if_pos h3, handleGameOver_state]
              exact hsub _ _
            · rw [if_neg h3]
              by_cases h4 : (m.mtype == "action_complete") = true
              · rw [if_pos h4, handleActionComplete_state]
                exact hsub _ _
              · rw [if_neg h4]
                exact hsub _ _

theorem roomKeys_runEvents_subset (es : List Event) :
    ∀ (s : ServerState) (rid : String),
      roomKeys (runEvents s es) rid ⊆ roomKeys s rid ++ joinPids rid es := by
  induction es with
  | nil =>
    intro s rid a ha
    exact List.mem_append_left _ ha
  | cons e es ih =>
    intro s rid a ha
    rw [joinPids_cons]
    rcases List.mem_append.mp (ih (step s e).1 rid ha) with h2 | h2
    · rcases List.mem_append.mp (roomKeys_step_subset s e rid h2) with h3 | h3
      · exact List.mem_append_left _ h3
      · exact List.mem_append_right _ (List.mem_append_left _ h3)
    · exact List.mem_append_right _ (List.mem_append_right _ h2)

/-- Every room map in the state has distinct member keys. -/
def RoomsWF (s : ServerState) : Prop :=
  ∀ rid room, mapGet s.rooms rid = some room → (room.players.map Prod.fst).Nodup

theorem RoomsWF_handlePlayerDisconnect (s : ServerState) (rid2 pid : String)
    (h : RoomsWF s) : RoomsWF (handlePlayerDisconnect s rid2 pid).1 := by
  unfold handlePlayerDisconnect
  cases hr : mapGet s.rooms rid2 with
  | none => exact h
  | some room =>
    simp only [hr]
    by_cases h0 : ((room.removePlayer pid).getPlayerCount == 0) = true
    · rw [if_pos h0]
      intro rid r hm
      simp only at hm
      by_cases he : rid = rid2
      · subst he
        rw [mapGet_mapDelete_self] at hm
        cases hm
      · rw [mapGet_mapDelete_ne _ _ _ he] at hm
        exact h _ _ hm
    · rw [if_neg h0]
      intro rid r hm
      simp only at hm
      by_cases he : rid = rid2
      · subst he
        rw [mapGet_mapSet_self] at hm
        have hrm := Option.some.inj hm
        rw [← hrm, GameRoom.removePlayer]
        exact nodup_keys_mapDelete _ _ (h _ _ hr)
      · rw [mapGet_mapSet_ne _ _ _ _ he] at hm
        exact h _ _ hm

theorem RoomsWF_handleDisconnect (s : ServerState) (ws : Conn)
    (h : RoomsWF s) : RoomsWF (handleDisconnect s ws).1 := by
  unfold handleDisconnect
  cases hc : mapGet s.clients ws with
  | none => exact h
  | some ci =>
    simp only [hc]
    by_cases hcond : (!falsy ci.roomId && !falsy ci.playerId) = true
    · rw [if_pos hcond]
      exact RoomsWF_handlePlayerDisconnect s _ _ h
    · rw [if_neg hcond]
      exact h

theorem RoomsWF_step (s : ServerState) (e : Event) (h : RoomsWF s) :
    RoomsWF (step s e).1 := by
  cases e with
  | connect ws => exact h
  | disconnect ws => exact RoomsWF_handleDisconnect _ ws h
  | frame ws decoded =>
    cases decoded with
    | none => exact h
    | some m =>
      show RoomsWF (handleMessage s ws m).1
      unfold handleMessage
      cases hc : mapGet s.clients ws with
      | none => exact h
      | some ci =>
        by_cases h1 : (m.mtype == "join_room") = true
        · rw [if_pos h1]
          by_cases hf : (falsy m.roomId || falsy m.playerId) = true
          · rw [handleJoinRoom_falsy _ _ _ _ hf]
            exact h
          · have hf2 : (falsy m.roomId || falsy m.playerId) = false := by simpa using hf
            by_cases hp : (roomAfterCreate s (m.roomId.getD "")).hasPlayer (m.playerId.getD "") = true
            · cases hg : mapGet s.rooms (m.roomId.getD "") with
              | none =>
                exfalso
                rw [roomAfterCreate, hg] at hp
                simp [GameRoom.hasPlayer, mapGet] at hp
              | some room =>
                have hroom : roomAfterCreate s (m.roomId.getD "") = room := by
                  simp [roomAfterCreate, hg]
                rw [handleJoinRoom_dup s ws m.roomId m.playerId room hf2 hg (hroom ▸ hp)]
                exact h
            · have hp2 : (roomAfterCreate s (m.roomId.getD "")).hasPlayer (m.playerId.getD "") = false := by
                simpa using hp
              rw [handleJoinRoom_success s ws m.roomId m.playerId ci hc hf2 hp2]
              intro rid r hm
              simp only at hm
              by_cases he : rid = m.roomId.getD ""
              · subst he
                rw [mapGet_mapSet_self] at hm
                have hrm := Option.some.inj hm
                rw [← hrm, GameRoom.addPlayer_fst]
                apply nodup_keys_mapSet
                unfold roomAfterCreate
                cases hg : mapGet s.rooms (m.roomId.getD "") with
                | none => simp
                | some room0 => simpa using h _ _ hg
              · rw [mapGet_mapSet_ne _ _ _ _ he] at hm
                exact h _ _ hm
        · rw [if_neg h1]
          by_cases h2 : (m.mtype == "chat") = true
          · rw [if_pos h2, handleChat_state]
            exact h
          · rw [if_neg h2]
            by_cases h3 : (m.mtype == "game_over") = true
            · rw [if_pos h3, handleGameOver_state]
              exact h
            · rw [if_neg h3]
              by_cases h4 : (m.mtype == "action_complete") = true
              · rw [if_pos h4, handleActionComplete_state]
                exact h
              · rw [if_neg h4]
                exact h

theorem RoomsWF_runEvents (es : List Event) :
    ∀ s : ServerState, RoomsWF s → RoomsWF (runEvents s es) := by
  induction es with
  | nil => exact fun s h => h
  | cons e es ih => exact fun s h => ih _ (RoomsWF_step s e h)

theorem RoomsWF_initState : RoomsWF initState := by
  intro rid room hm
  simp [initState, mapGet] at hm

/-- C1 (amended): in every trace from the initial state, the member count of
each room is bounded by the number of distinct playerIds carried by join_room
frames targeting that room; in particular it never exceeds 2 whenever at most
2 distinct playerIds ever target the room.  (As stated the claim is false:
the join handler performs no fullness check, so a third distinct playerId
joins an already-full room and the count reaches 3; see the counterexample.) -/
theorem c1_member_bound (es : List Event) (rid : String)
    (hcard : (joinPids rid es).dedup.length ≤ 2) :
    ∀ room, mapGet (runEvents initState es).rooms rid = some room →
      room.getPlayerCount ≤ 2 := by
  intro room hm
  have hnd : (room.players.map Prod.fst).Nodup :=
    RoomsWF_runEvents es initState RoomsWF_initState rid room hm
  have hsub : room.players.map Prod.fst ⊆ joinPids rid es := by
    intro a ha
    have h4 : a ∈ roomKeys (runEvents initState es) rid := by
      show a ∈ roomKeysOf (mapGet (runEvents initState es).rooms rid)
      rw [hm]
      exact ha
    have h5 := roomKeys_runEvents_subset es initState rid h4
    simpa [roomKeys, roomKeysOf, initState, mapGet] using h5
  have hlen : room.getPlayerCount = (room.players.map Prod.fst).length := by
    simp [GameRoom.getPlayerCount]
  rw [hlen, ← List.toFinset_card_of_nodup hnd]
  calc (room.players.map Prod.fst).toFinset.card
      ≤ (joinPids rid es).toFinset.card := by
        apply Finset.card_le_card
        intro x hx
        rw [List.mem_toFinset] at hx ⊢
        exact hsub hx
    _ = (joinPids rid es).dedup.length := List.card_toFinset _
    _ ≤ 2 := hcard

def c1wEvents : List Event :=
  [Event.connect 0, Event.connect 1, joinFrame 0 "r" "p1", joinFrame 1 "r" "p2"]

/-- Witness for C1 at a concrete trace with two distinct playerIds: the room
holds both and its count is 2 ≤ 2. -/
theorem c1_member_bound_witness :
    GameRoom.getPlayerCount ⟨"r", [("p1", ⟨0, "0"⟩), ("p2", ⟨1, "1"⟩)], ["p1", "p2"]⟩ ≤ 2 :=
  c1_member_bound c1wEvents "r" (by decide) _ (by decide)

def c1ceEvents : List Event :=
  [Event.connect 0, Event.connect 1, Event.connect 2,
   joinFrame 0 "r" "p1", joinFrame 1 "r" "p2", joinFrame 2 "r" "p3"]

/-- Counterexample to C1 as stated: three distinct players join room r in
sequence; the join handler never checks fullness, so after the third join the
member count of room r is 3, exceeding 2. -/
theorem c1_counterexample :
    ((mapGet (runEvents initState c1ceEvents).rooms "r").getD
        ⟨"r", [], []⟩).getPlayerCount = 3 := by
  decide

end NinjaWS
